import Mathlib

/-!
Shallow embedding of `src/day_02/src/data_checker/data_checker.py` (the
data-quality / type-dispatch engine: `check_data`, `check_data_quality`,
`check_categorical_quality`, `check_temporal_quality`, `find_outlier`).

Modelling conventions:
* Python scalars are embedded as an inductive `Item`: `None` and `float('nan')`
  are distinguished constructors, ints are `Int`, floats are `Rat` (exact
  arithmetic stands in for IEEE doubles in the statistics; the one place where
  the bit-level double matters, the Yamane sample size, is additionally
  modelled bit-faithfully by `fl64`/`sampleSizeFloat`), strings carry
  the result of the external library call `pd.to_datetime` as an `Option Int`
  timestamp field (the library is outside this repository, so its verdict on a
  given string is data, not code), `vArr` is a multi-element list/array item
  (on which `pd.isna` is array-valued, making the bare `if`/`or` truth tests
  of the numeric and categorical partition loops raise `ValueError`), and
  `vOther` covers every other scalar object.
* Python dicts are association lists `List (String × Value)` in insertion
  order; `setK` mirrors `d[k] = v` (update in place, else append).
* Timestamps and timedeltas are abstract integers (pandas stores both as
  integer nanosecond counts).
* `np.std` returns the square root of the population variance, an irrational
  number in general; the result dictionary stores it symbolically as
  `Value.vSqrt v` (denoting the real number `Real.sqrt v`), and the outlier
  comparison `x < mean - 2*std` / `x > mean + 2*std` is embedded by the
  algebraically equivalent rational test on squares (the equivalence over the
  reals is proved in `sqrt_threshold_iff_left`/`sqrt_threshold_iff_right`).
* A Python function that can raise an uncaught exception is embedded as
  `Except String _`; the string names the exception class. The modelled
  uncaught exceptions are the `ZeroDivisionError` of `check_data` at `N = 1`,
  the `KeyError` of the temporal gap lookup, and the `ValueError` of the
  numeric/categorical partition loops on array items (asserted by the
  repository test `test_no_crashes_on_bad_input`).
-/

namespace DataChecker

/-- A Python value as it can appear in the input lists of the checker:
`None`, `float('nan')`, an `int`, a finite `float`, a `str` (together with the
timestamp `pd.to_datetime` parses it to, if any), a multi-element list or
array (`vArr`), or any other scalar object (`vOther`). The two differ in one
observable way: `pd.isna` of a `vArr` item is array-valued, so the bare truth
test `if item is None or pd.isna(item)` in the numeric and categorical
partition loops raises `ValueError` on it (the repository test
`test_no_crashes_on_bad_input` asserts exactly this), while `pd.isna` of a
`vOther` scalar is plain `False`. -/
inductive Item where
  | vNone : Item
  | vNaN : Item
  | vInt (n : Int) : Item
  | vFloat (q : ℚ) : Item
  | vStr (s : String) (dateParse : Option Int) : Item
  | vArr : Item
  | vOther : Item
deriving DecidableEq, Repr

/-- A key of the pandas `value_counts()` dictionary in the categorical
analyzer: Python numeric equality identifies `2` and `2.0`, so integer-valued
ints and floats share the `kNum` constructor. -/
inductive CatKey where
  | kNum (q : ℚ) : CatKey
  | kStr (s : String) : CatKey
deriving DecidableEq, Repr

/-- A value stored in one of the analyzers' result dictionaries. -/
inductive Value where
  | vStr (s : String) : Value
  | vNat (n : Nat) : Value
  | vRat (q : ℚ) : Value
  | vSqrt (q : ℚ) : Value
  | vTs (t : Int) : Value
  | vNone : Value
  | vItems (l : List Item) : Value
  | vRats (l : List ℚ) : Value
  | vTsList (l : List Int) : Value
  | vTsCounts (l : List (Int × Nat)) : Value
  | vDiffDict (l : List (Nat × Option Int)) : Value
  | vCatCounts (l : List (CatKey × Nat)) : Value
  | vCat (k : CatKey) : Value
  | vStrs (l : List String) : Value
deriving DecidableEq, Repr

/-- A Python dict in insertion order. -/
abbrev Result := List (String × Value)

/-- Dictionary lookup `r[k]`. -/
def getK (r : Result) (k : String) : Option Value :=
  (r.find? (fun p => p.1 == k)).map (fun p => p.2)

/-- Whether key `k` is present (`k in r` in Python). -/
def hasKey (r : Result) (k : String) : Bool :=
  (getK r k).isSome

/-- Dictionary assignment `r[k] = v`: replaces the value in place when the key
exists (Python dicts keep the original insertion position), appends otherwise. -/
def setK (r : Result) (k : String) (v : Value) : Result :=
  if (r.find? (fun p => p.1 == k)).isSome then
    r.map (fun p => if p.1 == k then (k, v) else p)
  else
    r ++ [(k, v)]

/-- First occurrences of each element, in order (the key order pandas
hash-table based `value_counts` produces before sorting). `seen` accumulates
the elements already emitted. -/
def uniqFirst [DecidableEq α] : List α → List α → List α
  | _, [] => []
  | seen, x :: xs =>
    if x ∈ seen then uniqFirst seen xs else x :: uniqFirst (x :: seen) xs

/-- Insert a keyed count into a list sorted by descending count, after all
entries with a count at least as large (stable insertion). -/
def insertDesc [DecidableEq α] (p : α × Nat) : List (α × Nat) → List (α × Nat)
  | [] => [p]
  | q :: qs => if q.2 < p.2 then p :: q :: qs else q :: insertDesc p qs

/-- Stable insertion sort by descending count. -/
def sortDesc [DecidableEq α] : List (α × Nat) → List (α × Nat)
  | [] => []
  | p :: ps => insertDesc p (sortDesc ps)

/-- Model of `pd.Series(l).value_counts().to_dict()`: distinct values paired
with their multiplicities, ordered by descending count (ties kept in first
occurrence order; pandas leaves the tie order unspecified, this model fixes a
deterministic one). -/
def valueCounts [DecidableEq α] (l : List α) : List (α × Nat) :=
  sortDesc ((uniqFirst [] l).map (fun k => (k, l.count k)))

/-- Model of `np.min` on a nonempty list of rationals (`0` on `[]`, unused). -/
def listMin : List ℚ → ℚ
  | [] => 0
  | [x] => x
  | x :: y :: t => min x (listMin (y :: t))

/-- Model of `np.max` on a nonempty list of rationals (`0` on `[]`, unused). -/
def listMax : List ℚ → ℚ
  | [] => 0
  | [x] => x
  | x :: y :: t => max x (listMax (y :: t))

/-- Minimum of a nonempty list of integers (`0` on `[]`, unused). -/
def intMin : List Int → Int
  | [] => 0
  | [x] => x
  | x :: y :: t => min x (intMin (y :: t))

/-- Maximum of a nonempty list of integers (`0` on `[]`, unused). -/
def intMax : List Int → Int
  | [] => 0
  | [x] => x
  | x :: y :: t => max x (intMax (y :: t))

/-! ## Numeric analyzer: `check_data_quality` and `find_outlier` -/

/-- Whether some item is a multi-element list/array. When true, the first
such item makes `pd.isna(item)` array-valued inside the partition loops of
`check_data_quality` and `check_categorical_quality`, and the bare `if`/`or`
truth test raises an uncaught `ValueError` before any dictionary is built. -/
def containsArr (d : List Item) : Bool :=
  d.any (fun it => match it with | .vArr => true | _ => false)

/-- The `valid_data` list built by `check_data_quality`'s partition loop on an
array-free input (with an array item the loop raises before completing; see
`check_data_quality`): the numeric value of every item that is neither
`None`/NaN nor non-numeric. -/
def valid_data (d : List Item) : List ℚ :=
  d.filterMap (fun it =>
    match it with
    | .vInt n => some (n : ℚ)
    | .vFloat q => some q
    | _ => none)

/-- The `excluded_nan_none` list of `check_data_quality`: items caught by
`item is None or pd.isna(item)`. -/
def excluded_nan_none (d : List Item) : List Item :=
  d.filter (fun it =>
    match it with
    | .vNone => true
    | .vNaN => true
    | _ => false)

/-- The `excluded_non_numeric` list of `check_data_quality`: items that are
not `None`/NaN and fail `isinstance(item, (int, float, np.number))`. -/
def excluded_non_numeric (d : List Item) : List Item :=
  d.filter (fun it =>
    match it with
    | .vStr _ _ => true
    | .vOther => true
    | _ => false)

/-- Model of `np.mean` (exact arithmetic). -/
def npMean (l : List ℚ) : ℚ := l.sum / l.length

/-- Population variance, the square of `np.std`'s result. -/
def npVariance (l : List ℚ) : ℚ :=
  (l.map (fun x => (x - npMean l) ^ 2)).sum / l.length

/-- The outlier test of `find_outlier`, `x < mean - 2*std or x > mean + 2*std`
with `std = sqrt variance`, written without the square root: for `0 ≤ v`,
`x < m - 2*sqrt v` iff `x < m ∧ 4*v < (m-x)^2`, and symmetrically above
(`sqrt_threshold_iff_left` / `sqrt_threshold_iff_right` prove this). -/
def outlierB (m v x : ℚ) : Bool :=
  (decide (x < m) && decide (4 * v < (m - x) ^ 2)) ||
  (decide (m < x) && decide (4 * v < (x - m) ^ 2))

/-- Embedding of `find_outlier`: keeps the values of `cdata` lying outside
`[mean - 2*std, mean + 2*std]`. -/
def find_outlier (cdata : List ℚ) : List ℚ :=
  cdata.filter (outlierB (npMean cdata) (npVariance cdata))

/-- The dictionary a completed numeric run builds (lines 253-275 of the
source), for an array-free input. The `try` block never raises on a nonempty
list of numbers (its numpy calls are total there), so the `except Exception`
branch at lines 276-284 of the source is unreachable. -/
def numericAnalysis (d : List Item) : Result :=
  let v := valid_data d
  if v.isEmpty then
    [("data points", .vNat d.length),
     ("valid data points", .vNat 0),
     ("error", .vStr "No valid data points to analyze"),
     ("excluded_non_numeric", .vItems (excluded_non_numeric d)),
     ("excluded_nan_none", .vItems (excluded_nan_none d))]
  else
    [("analysis", .vStr "numerical"),
     ("data points", .vNat d.length),
     ("valid data points", .vNat v.length),
     ("std", .vSqrt (npVariance v)),
     ("mean", .vRat (npMean v)),
     ("min", .vRat (listMin v)),
     ("max", .vRat (listMax v)),
     ("outliers", .vRats (find_outlier v)),
     ("excluded_non_numeric", .vItems (excluded_non_numeric d)),
     ("excluded_nan_none", .vItems (excluded_nan_none d))]

/-- Embedding of `check_data_quality`. Its partition loop evaluates
`item is None or pd.isna(item)` on every item, which raises an uncaught
`ValueError` at the first multi-element list/array item (array-valued
`pd.isna`); since the raise aborts the call, the result depends only on
whether such an item is present. On array-free inputs the loop completes and
the function returns `numericAnalysis`. -/
def check_data_quality (d : List Item) : Except String Result :=
  if containsArr d then .error "ValueError" else .ok (numericAnalysis d)

/-! ## Categorical analyzer: `check_categorical_quality` -/

/-- The category an item contributes to `valid_data` in the categorical
partition loop, if any: integer-valued floats and ints as numbers (appended in
the first two branches), non-empty strings (appended in the last `elif`). -/
def catKeyOf (it : Item) : Option CatKey :=
  match it with
  | .vFloat q => if q.den = 1 then some (.kNum q) else none
  | .vInt n => some (.kNum (n : ℚ))
  | .vStr s _ => if s = "" then none else some (.kStr s)
  | _ => none

/-- The categorical `valid_data` list, in input order. -/
def cat_valid (d : List Item) : List CatKey := d.filterMap catKeyOf

/-- `none_count`: items reaching `item is None or pd.isna(item)`. NaN never
reaches it (it is a float, so the first branch claims it); only `None` counts. -/
def cat_none_count (d : List Item) : Nat :=
  (d.filter (fun it => match it with | .vNone => true | _ => false)).length

/-- `empty_string_count`: empty strings. -/
def cat_empty_count (d : List Item) : Nat :=
  (d.filter (fun it => match it with | .vStr s _ => s = "" | _ => false)).length

/-- `invalid_type`: non-integer floats (NaN included, since `nan % 1 == 0` is
false) and objects of any other type. -/
def cat_invalid_count (d : List Item) : Nat :=
  (d.filter (fun it =>
    match it with
    | .vNaN => true
    | .vFloat q => q.den ≠ 1
    | .vOther => true
    | _ => false)).length

/-- `str_count`: non-empty strings. -/
def cat_str_count (d : List Item) : Nat :=
  (d.filter (fun it => match it with | .vStr s _ => s ≠ "" | _ => false)).length

/-- The `floats` flag: set when some float fails `item % 1 == 0` (NaN included). -/
def cat_floats (d : List Item) : Bool :=
  d.any (fun it =>
    match it with
    | .vNaN => true
    | .vFloat q => q.den ≠ 1
    | _ => false)

/-- The analysis dict of a successful categorical run (lines 199-210 of the
source). -/
def cat_base (d : List Item) : Result :=
  let v := cat_valid d
  let vc := valueCounts v
  [("analysis", .vStr "categorical"),
   ("total_values", .vNat d.length),
   ("valid_categories", .vNat v.length),
   ("missing_none", .vNat (cat_none_count d)),
   ("missing_empty_string", .vNat (cat_empty_count d)),
   ("invalid_type_count", .vNat (cat_invalid_count d)),
   ("frequency distribution", .vCatCounts vc),
   ("unique count", .vNat vc.length),
   ("most common", .vCat (vc.headD (.kStr "", 0)).1),
   ("least common", .vCat (vc.getLastD (.kStr "", 0)).1)]

/-- The warnings list (lines 212-216): the float warning wins, else the
few-strings warning when `str_count <= len(valid_data) / 2` (with Python true
division, i.e. `2 * str_count ≤ len`). -/
def cat_warns (d : List Item) : List String :=
  if cat_floats d then
    ["Float detected, did you want numerical analysis?"]
  else if 2 * cat_str_count d ≤ (cat_valid d).length then
    ["not many strings, did you want numerical analysis?"]
  else []

/-- The dictionary a completed categorical run builds, for an array-free
input. -/
def categoricalAnalysis (d : List Item) : Result :=
  if (cat_valid d).isEmpty then
    [("analysis", .vStr "categorical"),
     ("error", .vStr "no valid data points")]
  else if (cat_warns d).isEmpty then cat_base d
  else cat_base d ++ [("warnings", .vStrs (cat_warns d))]

/-- Embedding of `check_categorical_quality`. Its partition loop reaches
`elif item is None or pd.isna(item)` for every item that is not a float or
int, so a multi-element list/array item raises an uncaught `ValueError`
there (array-valued `pd.isna`); on array-free inputs the loop completes. -/
def check_categorical_quality (d : List Item) : Except String Result :=
  if containsArr d then .error "ValueError" else .ok (categoricalAnalysis d)

/-! ## Temporal analyzer: `check_temporal_quality` -/

/-- Model of `pd.to_datetime(series, errors='coerce')` applied to one element:
strings parse (or not) according to the library verdict carried by the item,
numbers are taken as epoch counts, and every other object (including
list/array items) coerces to `NaT` — with `errors='coerce'`, unconvertible
elements become `NaT` rather than raising. -/
def coerceParse (it : Item) : Option Int :=
  match it with
  | .vStr _ p => p
  | .vInt n => some n
  | .vFloat q => some ⌊q⌋
  | _ => none

/-- Recursion for `validSeries`, carrying the index label of the next item. -/
def validSeriesAux : Nat → List Item → List (Nat × Int)
  | _, [] => []
  | i, it :: rest =>
    match coerceParse it with
    | some t => (i, t) :: validSeriesAux (i + 1) rest
    | none => validSeriesAux (i + 1) rest

/-- `valid_series = pd.to_datetime(series, errors='coerce').dropna()`: the
parsed timestamps paired with their original integer index labels (dropping a
row keeps the remaining labels, which is what makes the gap lookup fallible). -/
def validSeries (d : List Item) : List (Nat × Int) :=
  validSeriesAux 0 d

/-- `valid_series.diff().dropna()`: consecutive timestamp differences, each
keyed by the label of its later element. -/
def timeDeltas (vs : List (Nat × Int)) : List (Nat × Int) :=
  (vs.zip vs.tail).map (fun p => (p.2.1, p.2.2 - p.1.2))

/-- `valid_series.diff().to_dict()`: the first entry is `NaT` (`none`). -/
def diffDict (vs : List (Nat × Int)) : List (Nat × Option Int) :=
  match vs with
  | [] => []
  | (i, _) :: _ => (i, none) :: (timeDeltas vs).map (fun p => (p.1, some p.2))

/-- Largest multiplicity in a list. -/
def maxCount [DecidableEq α] (l : List α) : Nat :=
  (l.map (fun x => l.count x)).foldr max 0

/-- `time_deltas.mode()[0]`: pandas `mode` lists the values of maximal
multiplicity in ascending order, so `[0]` is the smallest of them. -/
def modeDelta (l : List Int) : Int :=
  intMin (l.filter (fun x => l.count x = maxCount l))

/-- Label-based lookup `valid_series[i]` (a `KeyError` when the label was
dropped is modelled by `none`). -/
def lookupLabel (vs : List (Nat × Int)) (i : Nat) : Option Int :=
  (vs.find? (fun p => p.1 == i)).map (fun p => p.2)

/-- `valid_series[gap_indices - 1].tolist()`: looks up the label one below
each gap label; `none` models the `KeyError` raised when some label `i - 1`
is not in the index. -/
def gapAfterDates (vs : List (Nat × Int)) : List Nat → Option (List Int)
  | [] => some []
  | i :: is =>
    match lookupLabel vs (i - 1), gapAfterDates vs is with
    | some t, some r => some (t :: r)
    | _, _ => none

/-- The analysis dict built at lines 115-126 of the source, before branching. -/
def temporalBase (d : List Item) (vs : List (Nat × Int)) : Result :=
  [("analysis", .vStr "temporal"),
   ("total values", .vNat d.length),
   ("total valid values", .vNat vs.length),
   ("invalid values", .vNat (d.length - vs.length)),
   ("earliest", .vTs (intMin (vs.map (fun p => p.2)))),
   ("latest", .vTs (intMax (vs.map (fun p => p.2)))),
   ("frequency/granularity", .vNone),
   ("repeated times", .vTsCounts (valueCounts (vs.map (fun p => p.2)))),
   ("diff", .vDiffDict (diffDict vs)),
   ("gaps_detected", .vNat 0)]

/-- The final reassignment `analysis['repeated times'] = {k: v for ... if v > 1}`. -/
def temporalFinish (vs : List (Nat × Int)) (r : Result) : Result :=
  setK r "repeated times"
    (.vTsCounts ((valueCounts (vs.map (fun p => p.2))).filter (fun p => 1 < p.2)))

/-- The consecutive-difference values `time_deltas` of the valid series. -/
def temporalDeltaVals (d : List Item) : List Int :=
  (timeDeltas (validSeries d)).map (fun p => p.2)

/-- The large gaps `time_deltas[time_deltas > most_common * 1.5]`, as
label/delta pairs; the comparison `delta > most_common * 1.5` is embedded
exactly as `3 * mode < 2 * delta`. -/
def temporalGaps (d : List Item) : List (Nat × Int) :=
  (timeDeltas (validSeries d)).filter
    (fun p => 3 * modeDelta (temporalDeltaVals d) < 2 * p.2)

/-- Embedding of `check_temporal_quality`. `Except.error "KeyError"` models
the uncaught `KeyError` of `valid_series[gap_indices - 1]` when a label
immediately below a gap label was dropped as unparseable. -/
def check_temporal_quality (d : List Item) : Except String Result :=
  let vs := validSeries d
  if vs.isEmpty then .ok [("error", .vStr "no valid data")]
  else
    if (temporalDeltaVals d).Nodup then
      .ok (temporalFinish vs
        (setK (setK (temporalBase d vs) "pattern" (.vStr "irregular"))
          "gaps" (.vStr "N/A - no regular pattern")))
    else
      let m := modeDelta (temporalDeltaVals d)
      let gapd := temporalGaps d
      let b1 := setK (temporalBase d vs) "detected frequency"
        (.vStr (toString m))
      let withGaps : Except String Result :=
        if gapd.isEmpty then .ok b1
        else
          match gapAfterDates vs (gapd.map (fun p => p.1)) with
          | none => .error "KeyError"
          | some ds => .ok (setK b1 "gap_after_dates" (.vTsList ds))
      match withGaps with
      | .error e => .error e
      | .ok b2 =>
        .ok (temporalFinish vs (setK b2 "gaps_detected" (.vNat gapd.length)))

/-! ## Type dispatcher: `check_data` -/

/-- Upper bound (in seconds) accepted by `pd.to_datetime(n, unit='s')` before
it raises `OutOfBoundsDatetime` (the maximal pandas timestamp, 2262-04-11). -/
def maxUnixSeconds : Int := 9223372036

/-- Per-item contribution to `(temp_count, num_count, cat_count)` in
`check_data`'s sampling loop. `None`/NaN are skipped; strings count as
temporal when they parse and always as categorical; ints above the year-2000
epoch count as temporal when in pandas range; ints and floats count as
numeric; ints, strings and integer-valued floats count as categorical. The
sampling loop never raises on an array item: every `pd.isna` call in it is
guarded by an `isinstance` check that an array fails, so `vArr` simply scores
zero everywhere. -/
def typeScores (it : Item) : Nat × Nat × Nat :=
  match it with
  | .vNone => (0, 0, 0)
  | .vNaN => (0, 0, 0)
  | .vStr _ p => (if p.isSome then 1 else 0, 0, 1)
  | .vInt n =>
    (if 946684800 < n ∧ n ≤ maxUnixSeconds then 1 else 0, 1, 1)
  | .vFloat q => (0, 1, if q.den = 1 then 1 else 0)
  | .vArr => (0, 0, 0)
  | .vOther => (0, 0, 0)

/-- Yamane's formula `sample_size = int(N / (1 + N * 0.1**2))` in exact
arithmetic: `⌊100N / (100 + N)⌋`. This is the idealisation of the source's
binary64 computation used inside the `check_data` model; the bit-faithful
value is `sampleSizeFloat` below, which agrees with `yamane` at every
`N ≤ 20000` except `N ∈ {400, 525, 900, 1150, 1900, 2400, 4900, 9900}`,
where the float rounding makes the program's value one smaller. The
dispatch-precedence and error-path properties proved about `check_data` are
insensitive to this (they hold for any positive sample size, and both
versions are `0` exactly at `N = 1`); the sample-size claim C5 is settled
against `sampleSizeFloat`. -/
def yamane (N : Nat) : Nat := 100 * N / (100 + N)

/-- Round a rational to the nearest integer, ties to even (the IEEE-754
default rounding). -/
def rne (x : ℚ) : ℤ :=
  if x - ⌊x⌋ < 1 / 2 then ⌊x⌋
  else if 1 / 2 < x - ⌊x⌋ then ⌊x⌋ + 1
  else if ⌊x⌋ % 2 = 0 then ⌊x⌋ else ⌊x⌋ + 1

/-- Binary64 (IEEE-754 double) rounding of a positive rational in the normal
range: with `e = ⌊log₂ q⌋` the significand `q·2^(52-e) ∈ [2^52, 2^53)` is
rounded to the nearest integer (ties to even) and scaled back. Every float
the modelled source line produces is positive and normal, so the `q ≤ 0`
branch (and overflow/subnormal behaviour) never arises. -/
def fl64 (q : ℚ) : ℚ :=
  if q ≤ 0 then 0
  else ((rne (q * 2 ^ ((52 : ℤ) - Int.log 2 q)) : ℤ) : ℚ) *
    2 ^ (Int.log 2 q - (52 : ℤ))

/-- The binary64 value of the source's `e ** 2` with `e = 0.1`: squaring the
double nearest `0.1` and rounding gives `0.010000000000000002`, one unit in
the last place above the double nearest `0.01`. -/
def e2float : ℚ := fl64 (fl64 (1 / 10) ^ 2)

/-- The sample size exactly as the program computes it:
`int(N / (1 + N * 0.1**2))` with every operation rounded in binary64 (`int`
truncates, which is the floor of the positive quotient). Checked against
CPython: this chain reproduces the program's value for every `N ≤ 20000`. -/
def sampleSizeFloat (N : Nat) : ℤ :=
  ⌊fl64 ((N : ℚ) / fl64 (1 + fl64 ((N : ℚ) * e2float)))⌋

/-- The sampled index list: `range(N)` when `N / s < 2`, else
`range(0, N, N // s)` (the Python float division makes the guard `N < 2*s`). -/
def sample_indices (N s : Nat) : List Nat :=
  if N < 2 * s then List.range N
  else
    let f := N / s
    (List.range ((N + f - 1) / f)).map (fun j => j * f)

/-- The `(temp_count, num_count, cat_count)` totals of `check_data`'s loop
over the sampled indices. -/
def type_counts (d : List Item) : Nat × Nat × Nat :=
  ((sample_indices d.length (yamane d.length)).map
    (fun i => typeScores (d.getD i .vNone))).foldr
    (fun a b => (a.1 + b.1, a.2.1 + b.2.1, a.2.2 + b.2.2)) (0, 0, 0)

/-- Embedding of `check_data`. `Except.error "ZeroDivisionError"` models the
uncaught division by zero in `N / sample_size` when the computed sample size
is `0` (which happens exactly at `N = 1`). -/
def check_data (d : List Item) : Except String Result :=
  if d.length = 0 then .ok [("error", .vStr "empty dataset")]
  else
    let N := d.length
    let s := yamane N
    if s = 0 then .error "ZeroDivisionError"
    else
      let c := type_counts d
      if c.2.1 ≤ c.1 ∧ c.2.2 ≤ c.1 then check_temporal_quality d
      else if c.2.2 ≤ c.2.1 then check_data_quality d
      else check_categorical_quality d

/-- Whether an `Except` computation returned normally. -/
def exceptOk (e : Except String Result) : Bool :=
  match e with
  | .ok _ => true
  | .error _ => false

/-! ## Percentile thresholds (spec model, for comparison with the source) -/

/-- Modelled from the spec: the spec describes the outlier detection as
"percentile-based thresholding". This is the `p`-th percentile of a data list
in the standard (numpy default) linear-interpolation sense: with `s` the
sorted data and `h = p * (n - 1) / 100`, the value is
`s[⌊h⌋] + (h - ⌊h⌋) * (s[⌊h⌋ + 1] - s[⌊h⌋])`. The source never computes a
percentile; this definition exists only to compare the spec's description
with the thresholds the source actually uses. -/
def percentileValue (p : ℚ) (l : List ℚ) : ℚ :=
  let s := l.insertionSort (· ≤ ·)
  let n := s.length
  if n = 0 then 0
  else
    let h : ℚ := p * ((n : ℚ) - 1) / 100
    let i : Nat := (⌊h⌋).toNat
    let lo := s.getD i 0
    let hi := s.getD (min (i + 1) (n - 1)) 0
    lo + (h - (i : ℚ)) * (hi - lo)

/-- Modelled from the spec: the set of all percentile values of a data list,
i.e. every threshold a "percentile-based" cutoff computed from the data could
take. -/
def percentileSet (l : List ℚ) : Set ℚ :=
  {y | ∃ p : ℚ, 0 ≤ p ∧ p ≤ 100 ∧ y = percentileValue p l}

/-- The `main()` example: daily dates with one duplicated day and one 2-day
jump (timestamps in days: 1, 2, 3, 3, 5, 6). -/
def gapWitnessData : List Item :=
  [.vStr "2024-01-01" (some 1), .vStr "2024-01-02" (some 2),
   .vStr "2024-01-03" (some 3), .vStr "2024-01-03" (some 3),
   .vStr "2024-01-05" (some 5), .vStr "2024-01-06" (some 6)]

/-- Daily dates where the entry immediately before the large gap fails to
parse: the valid labels are 0, 1, 3, 4, 5, the gap delta sits at label 3, and
label 2 is not in the index. -/
def gapKeyErrorData : List Item :=
  [.vStr "2024-01-01" (some 0), .vStr "2024-01-02" (some 1),
   .vStr "bad" none, .vStr "2024-01-10" (some 9),
   .vStr "2024-01-11" (some 10), .vStr "2024-01-12" (some 11)]

/-! ## Helper lemmas -/

theorem valid_data_isEmpty_false {d : List Item} (h : valid_data d ≠ []) :
    (valid_data d).isEmpty = false := by
  cases hv : valid_data d with
  | nil => exact absurd hv h
  | cons a t => rfl

/-- A successful numeric run means the input was array-free and the result
is the completed analysis dictionary. -/
theorem check_data_quality_ok_elim {d : List Item} {r : Result}
    (h : check_data_quality d = .ok r) :
    containsArr d = false ∧ r = numericAnalysis d := by
  cases hA : containsArr d
  · refine ⟨rfl, ?_⟩
    rw [check_data_quality, hA] at h
    simpa using h.symm
  · rw [check_data_quality, hA] at h
    simp at h

/-- A successful categorical run means the input was array-free and the
result is the completed analysis dictionary. -/
theorem check_categorical_quality_ok_elim {d : List Item} {r : Result}
    (h : check_categorical_quality d = .ok r) :
    containsArr d = false ∧ r = categoricalAnalysis d := by
  cases hA : containsArr d
  · refine ⟨rfl, ?_⟩
    rw [check_categorical_quality, hA] at h
    simpa using h.symm
  · rw [check_categorical_quality, hA] at h
    simp at h

/-- An array-free numeric run completes. -/
theorem check_data_quality_eq_ok {d : List Item} (hA : containsArr d = false) :
    check_data_quality d = .ok (numericAnalysis d) := by
  rw [check_data_quality, hA]
  rfl

/-- An array-free categorical run completes. -/
theorem check_categorical_quality_eq_ok {d : List Item}
    (hA : containsArr d = false) :
    check_categorical_quality d = .ok (categoricalAnalysis d) := by
  rw [check_categorical_quality, hA]
  rfl

/-- The `mean` entry of a completed numeric analysis. -/
theorem getK_numericAnalysis_mean {d : List Item} (h : valid_data d ≠ []) :
    getK (numericAnalysis d) "mean" = some (.vRat (npMean (valid_data d))) := by
  unfold numericAnalysis
  simp only [valid_data_isEmpty_false h, Bool.false_eq_true, if_false]
  rfl

/-- The `min` entry of a completed numeric analysis. -/
theorem getK_numericAnalysis_min {d : List Item} (h : valid_data d ≠ []) :
    getK (numericAnalysis d) "min" = some (.vRat (listMin (valid_data d))) := by
  unfold numericAnalysis
  simp only [valid_data_isEmpty_false h, Bool.false_eq_true, if_false]
  rfl

/-- The `max` entry of a completed numeric analysis. -/
theorem getK_numericAnalysis_max {d : List Item} (h : valid_data d ≠ []) :
    getK (numericAnalysis d) "max" = some (.vRat (listMax (valid_data d))) := by
  unfold numericAnalysis
  simp only [valid_data_isEmpty_false h, Bool.false_eq_true, if_false]
  rfl

/-- Every element is at least `listMin`. -/
theorem listMin_le : ∀ (l : List ℚ), ∀ x ∈ l, listMin l ≤ x
  | [], x, hx => absurd hx (List.not_mem_nil x)
  | [a], x, hx => by
    rcases List.mem_singleton.mp hx with rfl
    exact le_of_eq rfl
  | a :: b :: t, x, hx => by
    rcases List.mem_cons.mp hx with rfl | hx
    · exact min_le_left _ _
    · exact le_trans (min_le_right _ _) (listMin_le (b :: t) x hx)

/-- Every element is at most `listMax`. -/
theorem le_listMax : ∀ (l : List ℚ), ∀ x ∈ l, x ≤ listMax l
  | [], x, hx => absurd hx (List.not_mem_nil x)
  | [a], x, hx => by
    rcases List.mem_singleton.mp hx with rfl
    exact le_of_eq rfl
  | a :: b :: t, x, hx => by
    rcases List.mem_cons.mp hx with rfl | hx
    · exact le_max_left _ _
    · exact le_trans (le_listMax (b :: t) x hx) (le_max_right _ _)

/-- A list is bounded below by its length times its minimum. -/
theorem length_mul_listMin_le_sum :
    ∀ l : List ℚ, (l.length : ℚ) * listMin l ≤ l.sum := by
  intro l
  induction l with
  | nil => simp
  | cons a t ih =>
    have h1 : listMin (a :: t) ≤ a := listMin_le _ a (List.mem_cons_self a t)
    have h2 : (t.length : ℚ) * listMin (a :: t) ≤ t.sum := by
      cases t with
      | nil => simp
      | cons b u =>
        refine le_trans ?_ ih
        have : listMin (a :: b :: u) ≤ listMin (b :: u) := min_le_right _ _
        exact mul_le_mul_of_nonneg_left this (by positivity)
    have : ((a :: t).length : ℚ) = (t.length : ℚ) + 1 := by
      push_cast [List.length_cons]
      ring
    rw [this, List.sum_cons]
    nlinarith

/-- A list is bounded above by its length times its maximum. -/
theorem sum_le_length_mul_listMax :
    ∀ l : List ℚ, l.sum ≤ (l.length : ℚ) * listMax l := by
  intro l
  induction l with
  | nil => simp
  | cons a t ih =>
    have h1 : a ≤ listMax (a :: t) := le_listMax _ a (List.mem_cons_self a t)
    have h2 : t.sum ≤ (t.length : ℚ) * listMax (a :: t) := by
      cases t with
      | nil => simp
      | cons b u =>
        refine le_trans ih ?_
        have : listMax (b :: u) ≤ listMax (a :: b :: u) := le_max_right _ _
        exact mul_le_mul_of_nonneg_left this (by positivity)
    have : ((a :: t).length : ℚ) = (t.length : ℚ) + 1 := by
      push_cast [List.length_cons]
      ring
    rw [this, List.sum_cons]
    nlinarith

/-- The minimum of a nonempty list is at most its arithmetic mean. -/
theorem listMin_le_npMean {l : List ℚ} (h : l ≠ []) : listMin l ≤ npMean l := by
  have hl : 0 < (l.length : ℚ) := by
    have := List.length_pos.mpr h
    exact_mod_cast this
  rw [npMean, le_div_iff₀ hl]
  calc listMin l * (l.length : ℚ) = (l.length : ℚ) * listMin l := by ring
    _ ≤ l.sum := length_mul_listMin_le_sum l

/-- The arithmetic mean of a nonempty list is at most its maximum. -/
theorem npMean_le_listMax {l : List ℚ} (h : l ≠ []) : npMean l ≤ listMax l := by
  have hl : 0 < (l.length : ℚ) := by
    have := List.length_pos.mpr h
    exact_mod_cast this
  rw [npMean, div_le_iff₀ hl]
  calc l.sum ≤ (l.length : ℚ) * listMax l := sum_le_length_mul_listMax l
    _ = listMax l * (l.length : ℚ) := by ring

/-- The population variance is nonnegative. -/
theorem npVariance_nonneg (l : List ℚ) : 0 ≤ npVariance l := by
  rw [npVariance]
  apply div_nonneg _ (by positivity)
  apply List.sum_nonneg
  intro x hx
  rcases List.mem_map.mp hx with ⟨y, _, rfl⟩
  positivity

/-- The numeric partition loop of an array-free run accounts for every input
item exactly once. -/
theorem numeric_partition_length (d : List Item)
    (hA : containsArr d = false) :
    d.length =
      (valid_data d).length + (excluded_non_numeric d).length +
        (excluded_nan_none d).length := by
  induction d with
  | nil => rfl
  | cons it t ih =>
    simp only [containsArr, List.any_cons, Bool.or_eq_false_iff] at hA
    have ih2 := ih (by simp only [containsArr]; exact hA.2)
    have hA1 := hA.1
    cases it
    case vArr => simp at hA1
    all_goals
      simp only [valid_data, excluded_non_numeric, excluded_nan_none,
        List.filterMap_cons, List.filter_cons, List.length_cons] at *
    all_goals simp_all
    all_goals omega

/-- The categorical partition loop of an array-free run accounts for every
input item exactly once. -/
theorem cat_partition_length (d : List Item)
    (hA : containsArr d = false) :
    d.length =
      (cat_valid d).length + cat_none_count d + cat_empty_count d +
        cat_invalid_count d := by
  induction d with
  | nil => rfl
  | cons it t ih =>
    simp only [containsArr, List.any_cons, Bool.or_eq_false_iff] at hA
    have ih2 := ih (by simp only [containsArr]; exact hA.2)
    have hA1 := hA.1
    cases it with
    | vArr => simp at hA1
    | vFloat q =>
      by_cases hq : q.den = 1 <;>
        (simp only [cat_valid, catKeyOf, cat_none_count, cat_empty_count,
          cat_invalid_count, List.filterMap_cons, List.filter_cons,
          List.length_cons] at *
         simp_all
         omega)
    | vStr s p =>
      by_cases hs : s = "" <;>
        (simp only [cat_valid, catKeyOf, cat_none_count, cat_empty_count,
          cat_invalid_count, List.filterMap_cons, List.filter_cons,
          List.length_cons] at *
         simp_all
         omega)
    | _ =>
      simp only [cat_valid, catKeyOf, cat_none_count, cat_empty_count,
        cat_invalid_count, List.filterMap_cons, List.filter_cons,
        List.length_cons] at *
      simp_all
      omega

/-- The sample size is positive on every list of at least two elements. -/
theorem yamane_pos {N : Nat} (h : 2 ≤ N) : 0 < yamane N := by
  rw [yamane]
  have h100 : 0 < 100 + N := by omega
  have : 1 ≤ 100 * N / (100 + N) := by
    rw [Nat.le_div_iff_mul_le h100]
    omega
  omega

/-- The integer `sample_size = int(N / (1 + N * 0.1**2))` of the source equals
Yamane's formula with margin of error `0.1` evaluated in exact arithmetic. -/
theorem yamane_eq_floor (N : Nat) :
    (yamane N : ℤ) = ⌊(N : ℚ) / (1 + (N : ℚ) * ((1 : ℚ) / 10) ^ 2)⌋ := by
  have h1 : (N : ℚ) / (1 + (N : ℚ) * ((1 : ℚ) / 10) ^ 2) =
      ((100 * N : ℤ) : ℚ) / ((100 + N : ℕ) : ℚ) := by
    push_cast
    rw [div_eq_div_iff] <;> [ring; positivity; positivity]
  rw [h1, Rat.floor_intCast_div_natCast, yamane]
  push_cast [Int.ofNat_ediv]
  norm_num

/-- Counting bound for the stepped index list: `j` indexes into
`range(0, N, f)` exactly when `j * f < N`. -/
theorem lt_ceilDiv_iff {N f j : Nat} (hf : 0 < f) :
    j < (N + f - 1) / f ↔ j * f < N := by
  rw [Nat.lt_iff_add_one_le, Nat.le_div_iff_mul_le hf, Nat.succ_mul]
  generalize j * f = a
  omega

/-- Membership in the sampled index list, stepped branch: when `N / s ≥ 2`
(so the step is `f = N / s`), exactly the multiples of `f` below `N`. -/
theorem mem_sample_indices_stepped {N s : Nat} (hs : 0 < s) (h2 : 2 * s ≤ N)
    (i : Nat) :
    i ∈ sample_indices N s ↔ i < N ∧ N / s ∣ i := by
  have hN : ¬ N < 2 * s := by omega
  have hf : 0 < N / s := Nat.div_pos (by omega) hs
  rw [sample_indices, if_neg hN]
  simp only [List.mem_map, List.mem_range]
  constructor
  · rintro ⟨j, hj, rfl⟩
    have := (lt_ceilDiv_iff hf).mp hj
    exact ⟨this, Dvd.intro_left j rfl⟩
  · rintro ⟨hi, ⟨j, rfl⟩⟩
    refine ⟨j, ?_, by ring⟩
    rw [lt_ceilDiv_iff hf]
    calc j * (N / s) = N / s * j := by ring
      _ < N := hi

/-- Membership in the sampled index list, exhaustive branch: when `N / s < 2`
every index below `N` is sampled. -/
theorem sample_indices_all {N s : Nat} (h : N < 2 * s) :
    sample_indices N s = List.range N := by
  rw [sample_indices, if_pos h]

/-- All-`none` parses give an empty valid series. -/
theorem validSeriesAux_nil_of_none {d : List Item}
    (h : ∀ it ∈ d, coerceParse it = none) :
    ∀ i, validSeriesAux i d = [] := by
  induction d with
  | nil => intro i; rfl
  | cons it t ih =>
    intro i
    have h0 : coerceParse it = none := h it (List.mem_cons_self it t)
    have hrec := ih (fun j hj => h j (List.mem_cons_of_mem it hj)) (i + 1)
    simp [validSeriesAux, h0, hrec]

/-- A fold of all-zero score triples is zero. -/
theorem foldr_scores_zero :
    ∀ L : List (Nat × Nat × Nat), (∀ x ∈ L, x = (0, 0, 0)) →
      L.foldr (fun a b => (a.1 + b.1, a.2.1 + b.2.1, a.2.2 + b.2.2))
        (0, 0, 0) = (0, 0, 0) := by
  intro L
  induction L with
  | nil => intro _; rfl
  | cons x t ih =>
    intro h
    have hx := h x (List.mem_cons_self x t)
    have ht := ih (fun y hy => h y (List.mem_cons_of_mem x hy))
    rw [List.foldr_cons, ht, hx]
    rfl

/-- When every item scores zero for every type, the sampled counts are zero. -/
theorem type_counts_zero {d : List Item}
    (h : ∀ it ∈ d, typeScores it = (0, 0, 0)) :
    type_counts d = (0, 0, 0) := by
  rw [type_counts]
  apply foldr_scores_zero
  intro x hx
  rcases List.mem_map.mp hx with ⟨i, _, rfl⟩
  rcases Decidable.em (i < d.length) with hi | hi
  · have : d.getD i .vNone ∈ d := by
      rw [List.getD_eq_getElem?_getD, List.getElem?_eq_getElem hi]
      exact List.getElem_mem _
    exact h _ this
  · rw [List.getD_eq_getElem?_getD, List.getElem?_eq_none (by omega)]
    rfl

/-- Over the reals, the source's lower outlier test `x < mean - 2 * std` with
`std = sqrt v` is equivalent to the rational square test used in `outlierB`. -/
theorem sqrt_threshold_iff_left (m v x : ℚ) (hv : 0 ≤ v) :
    ((x : ℝ) < (m : ℝ) - 2 * Real.sqrt (v : ℝ)) ↔
      (x < m ∧ 4 * v < (m - x) ^ 2) := by
  have hs : 0 ≤ Real.sqrt (v : ℝ) := Real.sqrt_nonneg _
  have hsq : Real.sqrt (v : ℝ) ^ 2 = (v : ℝ) := Real.sq_sqrt (by exact_mod_cast hv)
  constructor
  · intro h
    have key1 : 0 < (m : ℝ) - x - 2 * Real.sqrt (v : ℝ) := by linarith
    have key2 : 0 < (m : ℝ) - x + 2 * Real.sqrt (v : ℝ) := by linarith
    have hprod : 0 < ((m : ℝ) - x - 2 * Real.sqrt (v : ℝ)) *
        ((m : ℝ) - x + 2 * Real.sqrt (v : ℝ)) := mul_pos key1 key2
    have hxm : x < m := by
      have : (x : ℝ) < (m : ℝ) := by linarith
      exact_mod_cast this
    have hgt : 4 * v < (m - x) ^ 2 := by
      have : ((4 * v : ℚ) : ℝ) < (((m - x) ^ 2 : ℚ) : ℝ) := by
        push_cast
        nlinarith [hprod, hsq]
      exact_mod_cast this
    exact ⟨hxm, hgt⟩
  · rintro ⟨h1, h2⟩
    have h1R : (x : ℝ) < (m : ℝ) := by exact_mod_cast h1
    have h2R : ((4 * v : ℚ) : ℝ) < (((m - x) ^ 2 : ℚ) : ℝ) := by exact_mod_cast h2
    push_cast at h2R
    by_contra hcon
    push_neg at hcon
    have hle : (m : ℝ) - x ≤ 2 * Real.sqrt (v : ℝ) := by linarith
    have hmx : 0 ≤ (m : ℝ) - x := by linarith
    have := mul_self_le_mul_self hmx hle
    nlinarith [this, hsq]

/-- Over the reals, the source's upper outlier test `x > mean + 2 * std` with
`std = sqrt v` is equivalent to the rational square test used in `outlierB`. -/
theorem sqrt_threshold_iff_right (m v x : ℚ) (hv : 0 ≤ v) :
    ((m : ℝ) + 2 * Real.sqrt (v : ℝ) < (x : ℝ)) ↔
      (m < x ∧ 4 * v < (x - m) ^ 2) := by
  have hs : 0 ≤ Real.sqrt (v : ℝ) := Real.sqrt_nonneg _
  have hsq : Real.sqrt (v : ℝ) ^ 2 = (v : ℝ) := Real.sq_sqrt (by exact_mod_cast hv)
  constructor
  · intro h
    have key1 : 0 < (x : ℝ) - m - 2 * Real.sqrt (v : ℝ) := by linarith
    have key2 : 0 < (x : ℝ) - m + 2 * Real.sqrt (v : ℝ) := by linarith
    have hprod : 0 < ((x : ℝ) - m - 2 * Real.sqrt (v : ℝ)) *
        ((x : ℝ) - m + 2 * Real.sqrt (v : ℝ)) := mul_pos key1 key2
    have hxm : m < x := by
      have : (m : ℝ) < (x : ℝ) := by linarith
      exact_mod_cast this
    have hgt : 4 * v < (x - m) ^ 2 := by
      have : ((4 * v : ℚ) : ℝ) < (((x - m) ^ 2 : ℚ) : ℝ) := by
        push_cast
        nlinarith [hprod, hsq]
      exact_mod_cast this
    exact ⟨hxm, hgt⟩
  · rintro ⟨h1, h2⟩
    have h1R : (m : ℝ) < (x : ℝ) := by exact_mod_cast h1
    have h2R : ((4 * v : ℚ) : ℝ) < (((x - m) ^ 2 : ℚ) : ℝ) := by exact_mod_cast h2
    push_cast at h2R
    by_contra hcon
    push_neg at hcon
    have hle : (x : ℝ) - m ≤ 2 * Real.sqrt (v : ℝ) := by linarith
    have hmx : 0 ≤ (x : ℝ) - m := by linarith
    have := mul_self_le_mul_self hmx hle
    nlinarith [this, hsq]

/-! ## Claims -/

/-- C6: the claim asserts that the sample size computed by `check_data` is
positive for every non-empty list, so that `N / sample_size` is well-defined
and a single-element list yields a result dictionary. The code violates this:
at `N = 1` Yamane's formula gives `int(1 / 1.01) = 0`, and `N / sample_size`
raises an uncaught `ZeroDivisionError`, so `check_data([5])` crashes instead
of returning a dictionary (contradicting the function's own docstring, which
promises a dictionary for every input). -/
theorem C6_single_element_division_by_zero :
    yamane 1 = 0 ∧ check_data [Item.vInt 5] = .error "ZeroDivisionError" :=
  ⟨rfl, rfl⟩

/-- C8: in every result dictionary `check_data_quality` returns on an input
whose valid numeric values are non-empty, the `mean` entry is the arithmetic
mean (sum divided by count) of the valid numeric values. -/
theorem C8_mean_is_arithmetic_mean (d : List Item) (r : Result)
    (hok : check_data_quality d = .ok r) (h : valid_data d ≠ []) :
    getK r "mean" =
      some (.vRat ((valid_data d).sum / ((valid_data d).length : ℚ))) := by
  obtain ⟨-, rfl⟩ := check_data_quality_ok_elim hok
  rw [getK_numericAnalysis_mean h]
  rfl

/-- C8 witness: in particular the mean of `[1, 2, 3]` is `2`. -/
theorem C8_mean_is_arithmetic_mean_witness :
    check_data_quality [Item.vInt 1, Item.vInt 2, Item.vInt 3] =
      .ok (numericAnalysis [Item.vInt 1, Item.vInt 2, Item.vInt 3]) ∧
    (valid_data [Item.vInt 1, Item.vInt 2, Item.vInt 3]).length = 3 ∧
    getK (numericAnalysis [Item.vInt 1, Item.vInt 2, Item.vInt 3]) "mean" =
      some (.vRat 2) :=
  ⟨rfl, by decide, by
    rw [C8_mean_is_arithmetic_mean [Item.vInt 1, Item.vInt 2, Item.vInt 3]
      (numericAnalysis [Item.vInt 1, Item.vInt 2, Item.vInt 3]) rfl
      (by decide)]
    norm_num [valid_data, List.filterMap_cons, List.sum_cons, List.sum_nil]⟩

/-- C9: the four analysis functions are deterministic — they are pure
functions of their input list (the embedding is stateless, mirroring the
source, which reads no mutable global state; its only side effect is
logging, which does not influence the returned dictionaries), so equal
inputs give equal result dictionaries. -/
theorem C9_deterministic (d1 d2 : List Item) (h : d1 = d2) :
    check_data d1 = check_data d2 ∧
    check_data_quality d1 = check_data_quality d2 ∧
    check_categorical_quality d1 = check_categorical_quality d2 ∧
    check_temporal_quality d1 = check_temporal_quality d2 := by
  subst h
  exact ⟨rfl, rfl, rfl, rfl⟩

/-- C9 witness: two runs on the equal list `[1]` agree. -/
theorem C9_deterministic_witness :
    [Item.vInt 1] = [Item.vInt 1] ∧
    (check_data [Item.vInt 1] = check_data [Item.vInt 1] ∧
     check_data_quality [Item.vInt 1] = check_data_quality [Item.vInt 1] ∧
     check_categorical_quality [Item.vInt 1] =
       check_categorical_quality [Item.vInt 1] ∧
     check_temporal_quality [Item.vInt 1] =
       check_temporal_quality [Item.vInt 1]) :=
  ⟨rfl, C9_deterministic [Item.vInt 1] [Item.vInt 1] rfl⟩

/-- C10: in every successful numeric analysis, the returned entries satisfy
`min ≤ mean ≤ max`. -/
theorem C10_min_le_mean_le_max (d : List Item) (r : Result)
    (hok : check_data_quality d = .ok r) (h : valid_data d ≠ []) :
    ∃ mn me mx : ℚ,
      getK r "min" = some (.vRat mn) ∧
      getK r "mean" = some (.vRat me) ∧
      getK r "max" = some (.vRat mx) ∧
      mn ≤ me ∧ me ≤ mx := by
  obtain ⟨-, rfl⟩ := check_data_quality_ok_elim hok
  exact ⟨listMin (valid_data d), npMean (valid_data d), listMax (valid_data d),
    getK_numericAnalysis_min h, getK_numericAnalysis_mean h,
    getK_numericAnalysis_max h, listMin_le_npMean h, npMean_le_listMax h⟩

/-- C10 witness: concrete instance on `[3, 1, 2]`. -/
theorem C10_min_le_mean_le_max_witness :
    check_data_quality [Item.vInt 3, Item.vInt 1, Item.vInt 2] =
      .ok (numericAnalysis [Item.vInt 3, Item.vInt 1, Item.vInt 2]) ∧
    (valid_data [Item.vInt 3, Item.vInt 1, Item.vInt 2]).length = 3 ∧
    (∃ mn me mx : ℚ,
      getK (numericAnalysis [Item.vInt 3, Item.vInt 1, Item.vInt 2]) "min" =
        some (.vRat mn) ∧
      getK (numericAnalysis [Item.vInt 3, Item.vInt 1, Item.vInt 2]) "mean" =
        some (.vRat me) ∧
      getK (numericAnalysis [Item.vInt 3, Item.vInt 1, Item.vInt 2]) "max" =
        some (.vRat mx) ∧
      mn ≤ me ∧ me ≤ mx) :=
  ⟨rfl, by decide,
   C10_min_le_mean_le_max [Item.vInt 3, Item.vInt 1, Item.vInt 2]
     (numericAnalysis [Item.vInt 3, Item.vInt 1, Item.vInt 2]) rfl
     (by decide)⟩

/-- A non-nil list has `isEmpty = false`. -/
theorem isEmpty_false_of_ne_nil {α : Type} {l : List α} (h : l ≠ []) :
    l.isEmpty = false := by
  cases l with
  | nil => exact absurd rfl h
  | cons a t => rfl

/-- Keys found in the left part of an appended dict read the same value. -/
theorem getK_append_left (r2 : Result) (k : String) :
    ∀ r : Result, (getK r k).isSome = true → getK (r ++ r2) k = getK r k := by
  intro r
  induction r with
  | nil => intro h; simp [getK] at h
  | cons p t ih =>
    intro h
    cases hp : p.1 == k
    · simp only [getK, List.cons_append, List.find?, hp] at h ⊢
      exact ih h
    · simp only [getK, List.cons_append, List.find?, hp]

/-- A completed categorical run returns the base dict, possibly extended by
a warnings entry. -/
theorem categoricalAnalysis_eq (d : List Item)
    (h : (cat_valid d).isEmpty = false) :
    categoricalAnalysis d = cat_base d ∨
    categoricalAnalysis d =
      cat_base d ++ [("warnings", .vStrs (cat_warns d))] := by
  unfold categoricalAnalysis
  rw [h]
  cases hw : (cat_warns d).isEmpty <;> simp [hw]

/-- Entries of the categorical base dict survive into the completed result. -/
theorem getK_cat_common {d : List Item} (h : cat_valid d ≠ []) (k : String)
    (v : Value) (hk : getK (cat_base d) k = some v) :
    getK (categoricalAnalysis d) k = some v := by
  rcases categoricalAnalysis_eq d (isEmpty_false_of_ne_nil h) with he | he
  · rw [he, hk]
  · rw [he, getK_append_left _ _ _ (by rw [hk]; rfl), hk]

/-- C7: each checker accounts for every input element exactly once. In every
successful numeric analysis, `data points` equals the number of valid points
plus the lengths of the two exclusion lists; in every successful categorical
analysis, `total_values` equals valid + missing-none + missing-empty +
invalid-type. -/
theorem C7_every_element_accounted (d1 d2 : List Item) (r1 r2 : Result)
    (hok1 : check_data_quality d1 = .ok r1) (h1 : valid_data d1 ≠ [])
    (hok2 : check_categorical_quality d2 = .ok r2) (h2 : cat_valid d2 ≠ []) :
    (getK r1 "data points" = some (.vNat d1.length) ∧
     getK r1 "valid data points" =
       some (.vNat (valid_data d1).length) ∧
     getK r1 "excluded_non_numeric" =
       some (.vItems (excluded_non_numeric d1)) ∧
     getK r1 "excluded_nan_none" =
       some (.vItems (excluded_nan_none d1)) ∧
     d1.length = (valid_data d1).length + (excluded_non_numeric d1).length +
       (excluded_nan_none d1).length) ∧
    (getK r2 "total_values" = some (.vNat d2.length) ∧
     getK r2 "valid_categories" = some (.vNat (cat_valid d2).length) ∧
     getK r2 "missing_none" = some (.vNat (cat_none_count d2)) ∧
     getK r2 "missing_empty_string" = some (.vNat (cat_empty_count d2)) ∧
     getK r2 "invalid_type_count" = some (.vNat (cat_invalid_count d2)) ∧
     d2.length = (cat_valid d2).length + cat_none_count d2 +
       cat_empty_count d2 + cat_invalid_count d2) := by
  obtain ⟨hA1, rfl⟩ := check_data_quality_ok_elim hok1
  obtain ⟨hA2, rfl⟩ := check_categorical_quality_ok_elim hok2
  have e1 : (valid_data d1).isEmpty = false := isEmpty_false_of_ne_nil h1
  constructor
  · refine ⟨?_, ?_, ?_, ?_, numeric_partition_length d1 hA1⟩ <;>
      (unfold numericAnalysis
       simp only [e1, Bool.false_eq_true, if_false]
       rfl)
  · exact ⟨getK_cat_common h2 _ _ rfl, getK_cat_common h2 _ _ rfl,
      getK_cat_common h2 _ _ rfl, getK_cat_common h2 _ _ rfl,
      getK_cat_common h2 _ _ rfl, cat_partition_length d2 hA2⟩

/-- C7 witness: concrete instance on a mixed numeric list and a mixed
categorical list. -/
theorem C7_every_element_accounted_witness :
    check_data_quality [Item.vInt 1, Item.vStr "abc" none, Item.vNone,
      Item.vNaN] =
      .ok (numericAnalysis [Item.vInt 1, Item.vStr "abc" none, Item.vNone,
        Item.vNaN]) ∧
    check_categorical_quality [Item.vStr "a" none, Item.vNone,
      Item.vStr "" none, Item.vNaN, Item.vInt 4] =
      .ok (categoricalAnalysis [Item.vStr "a" none, Item.vNone,
        Item.vStr "" none, Item.vNaN, Item.vInt 4]) ∧
    (valid_data [Item.vInt 1, Item.vStr "abc" none, Item.vNone,
      Item.vNaN]).length = 1 ∧
    (cat_valid [Item.vStr "a" none, Item.vNone, Item.vStr "" none,
      Item.vNaN, Item.vInt 4]).length = 2 ∧
    ((getK (numericAnalysis [Item.vInt 1, Item.vStr "abc" none, Item.vNone,
        Item.vNaN]) "data points" = some (.vNat 4) ∧
      getK (numericAnalysis [Item.vInt 1, Item.vStr "abc" none, Item.vNone,
        Item.vNaN]) "valid data points" = some (.vNat 1)) ∧
     (getK (categoricalAnalysis [Item.vStr "a" none, Item.vNone,
        Item.vStr "" none, Item.vNaN, Item.vInt 4]) "total_values" =
        some (.vNat 5) ∧
      getK (categoricalAnalysis [Item.vStr "a" none, Item.vNone,
        Item.vStr "" none, Item.vNaN, Item.vInt 4])
        "valid_categories" = some (.vNat 2))) := by
  have h := C7_every_element_accounted
    [Item.vInt 1, Item.vStr "abc" none, Item.vNone, Item.vNaN]
    [Item.vStr "a" none, Item.vNone, Item.vStr "" none, Item.vNaN,
      Item.vInt 4]
    (numericAnalysis [Item.vInt 1, Item.vStr "abc" none, Item.vNone,
      Item.vNaN])
    (categoricalAnalysis [Item.vStr "a" none, Item.vNone, Item.vStr "" none,
      Item.vNaN, Item.vInt 4])
    rfl (by decide) rfl (by decide)
  refine ⟨rfl, rfl, by decide, by decide, ⟨⟨?_, ?_⟩, ?_, ?_⟩⟩
  · exact h.1.1
  · exact h.1.2.1.trans (by decide)
  · exact h.2.1
  · exact h.2.2.1.trans (by decide)

/-- A temporal run with no valid timestamps returns the error dictionary. -/
theorem check_temporal_quality_no_valid {d : List Item}
    (h : validSeries d = []) :
    check_temporal_quality d = .ok [("error", .vStr "no valid data")] := by
  unfold check_temporal_quality
  rw [h]
  rfl

/-- C1 (amended): for every input list of length at least 2, `check_data`
returns (or propagates the outcome of) exactly one of the three analyzers,
chosen by precedence on the sampled type counts: temporal when the temporal
count is at least both others, else numeric when the numeric count is at
least the categorical count, else categorical. (As stated over all non-empty
lists the claim fails: on single-element lists `check_data` raises
`ZeroDivisionError` before dispatching, see the counterexample.) -/
theorem C1_dispatch_by_precedence (d : List Item) (h : 2 ≤ d.length) :
    check_data d =
      (if (type_counts d).2.1 ≤ (type_counts d).1 ∧
          (type_counts d).2.2 ≤ (type_counts d).1 then
        check_temporal_quality d
      else if (type_counts d).2.2 ≤ (type_counts d).2.1 then
        check_data_quality d
      else check_categorical_quality d) := by
  have h0 : ¬ d.length = 0 := by omega
  have hy : ¬ yamane d.length = 0 := by
    have := yamane_pos h
    omega
  unfold check_data
  simp only [if_neg h0, if_neg hy]

/-- C1 witness: a two-element integer list dispatches to the numeric
analyzer. -/
theorem C1_dispatch_by_precedence_witness :
    2 ≤ ([Item.vInt 1, Item.vInt 2] : List Item).length ∧
    check_data [Item.vInt 1, Item.vInt 2] =
      check_data_quality [Item.vInt 1, Item.vInt 2] :=
  ⟨by decide,
   (C1_dispatch_by_precedence [Item.vInt 1, Item.vInt 2] (by decide)).trans
     (by rfl)⟩

/-- C1 counterexample: on a single-element list (here one valid date string)
`check_data` raises `ZeroDivisionError` and thus returns the result of none
of the three analyzers, although the analyzer its precedence rule selects
(temporal) would have returned normally. -/
theorem C1_counterexample_single_element :
    check_data [Item.vStr "2024-01-01" (some 0)] =
      .error "ZeroDivisionError" ∧
    exceptOk (check_temporal_quality [Item.vStr "2024-01-01" (some 0)]) =
      true :=
  ⟨rfl, rfl⟩

/-- C3 (amended): on array-free inputs (no multi-element list/array items),
the empty input and the no-valid-data inputs produce an `error` dictionary
entry without any exception: `check_data` returns it on the empty list, each
of the three analyzers returns it whenever it has no valid data points, and
`check_data` returns it on all-invalid inputs of length at least 2. With an
array-like item present, the numeric and categorical analyzers instead raise
an uncaught `ValueError` (array-valued `pd.isna` in the bare `or` test — the
repository test `test_no_crashes_on_bad_input` asserts this exception). As
originally stated the claim is false in three ways: that `ValueError`,
`check_data`'s `ZeroDivisionError` on single-element lists, and
`check_temporal_quality`'s `KeyError` (claim C4); see the counterexample. -/
theorem C3_error_dictionaries :
    (check_data [] = .ok [("error", .vStr "empty dataset")]) ∧
    (∀ d : List Item, containsArr d = true →
      check_data_quality d = .error "ValueError") ∧
    (∀ d : List Item, containsArr d = true →
      check_categorical_quality d = .error "ValueError") ∧
    (∀ d : List Item, containsArr d = false → valid_data d = [] →
      ∃ r, check_data_quality d = .ok r ∧ hasKey r "error" = true) ∧
    (∀ d : List Item, containsArr d = false → cat_valid d = [] →
      ∃ r, check_categorical_quality d = .ok r ∧ hasKey r "error" = true) ∧
    (∀ d : List Item, containsArr d = false → validSeries d = [] →
      check_temporal_quality d = .ok [("error", .vStr "no valid data")]) ∧
    (∀ d : List Item, 2 ≤ d.length →
      (∀ it ∈ d, it = .vNone ∨ it = .vNaN ∨ it = .vOther) →
      check_data d = .ok [("error", .vStr "no valid data")]) := by
  refine ⟨rfl, ?_, ?_, ?_, ?_, ?_, ?_⟩
  · intro d hA
    rw [check_data_quality, hA]
    rfl
  · intro d hA
    rw [check_categorical_quality, hA]
    rfl
  · intro d hA h
    refine ⟨numericAnalysis d, check_data_quality_eq_ok hA, ?_⟩
    unfold numericAnalysis
    rw [h]
    rfl
  · intro d hA h
    refine ⟨categoricalAnalysis d, check_categorical_quality_eq_ok hA, ?_⟩
    unfold categoricalAnalysis
    rw [h]
    rfl
  · intro d _ h
    exact check_temporal_quality_no_valid h
  · intro d hlen hall
    have hts : ∀ it ∈ d, typeScores it = (0, 0, 0) := by
      intro it hit
      rcases hall it hit with rfl | rfl | rfl <;> rfl
    have hc := type_counts_zero hts
    have hcoerce : ∀ it ∈ d, coerceParse it = none := by
      intro it hit
      rcases hall it hit with rfl | rfl | rfl <;> rfl
    have hvs : validSeries d = [] := validSeriesAux_nil_of_none hcoerce 0
    have h0 : ¬ d.length = 0 := by omega
    have hy : ¬ yamane d.length = 0 := by
      have := yamane_pos hlen
      omega
    unfold check_data
    simp only [if_neg h0, if_neg hy, hc]
    norm_num
    exact check_temporal_quality_no_valid hvs

/-- C3 witness: the error-dictionary paths and the `ValueError` path at
concrete inputs. -/
theorem C3_error_dictionaries_witness :
    check_data_quality [Item.vArr] = .error "ValueError" ∧
    check_categorical_quality [Item.vArr] = .error "ValueError" ∧
    (∃ r, check_data_quality [Item.vStr "x" none] = .ok r ∧
      hasKey r "error" = true) ∧
    (∃ r, check_categorical_quality [Item.vNaN] = .ok r ∧
      hasKey r "error" = true) ∧
    check_temporal_quality [Item.vOther] =
      .ok [("error", .vStr "no valid data")] ∧
    check_data [Item.vNone, Item.vNaN, Item.vOther] =
      .ok [("error", .vStr "no valid data")] :=
  ⟨C3_error_dictionaries.2.1 _ rfl,
   C3_error_dictionaries.2.2.1 _ rfl,
   C3_error_dictionaries.2.2.2.1 _ rfl rfl,
   C3_error_dictionaries.2.2.2.2.1 _ rfl rfl,
   C3_error_dictionaries.2.2.2.2.2.1 _ rfl rfl,
   C3_error_dictionaries.2.2.2.2.2.2 _ (by decide) (by decide)⟩

/-- C3 counterexample: three inputs on which an analyzer has no statistics to
produce, yet an exception propagates instead of an `error` dictionary. The
list `['a', [1,2,3], 4]` is the repository's own `test_no_crashes_on_bad_input`
input: `check_data_quality` raises `ValueError` on it; `[[1,2,3]]` has no
valid categories yet `check_categorical_quality` raises the same; and `[None]`
has no valid data points for any analyzer yet `check_data` raises
`ZeroDivisionError`. -/
theorem C3_counterexample_exception_propagates :
    check_data_quality [Item.vStr "a" none, Item.vArr, Item.vInt 4] =
      .error "ValueError" ∧
    cat_valid [Item.vArr] = [] ∧
    check_categorical_quality [Item.vArr] = .error "ValueError" ∧
    valid_data [Item.vNone] = [] ∧
    check_data [Item.vNone] = .error "ZeroDivisionError" :=
  ⟨rfl, rfl, rfl, rfl, rfl⟩

/-- Characterisation of `Int.log` base 2 by explicit power bounds. -/
theorem int_log2_eq {q : ℚ} {e : ℤ} (h1 : (2 : ℚ) ^ e ≤ q)
    (h2 : q < (2 : ℚ) ^ (e + 1)) : Int.log 2 q = e := by
  have hq : 0 < q := lt_of_lt_of_le (by positivity) h1
  have c1 : e ≤ Int.log 2 q := by
    rw [← Int.zpow_le_iff_le_log one_lt_two hq]
    exact_mod_cast h1
  have c2 : Int.log 2 q < e + 1 := by
    rw [← Int.lt_zpow_iff_log_lt one_lt_two hq]
    exact_mod_cast h2
  omega

/-- `rne` at a point strictly below the midpoint rounds down. -/
theorem rne_eq_floor {x : ℚ} {f : ℤ} (h1 : (f : ℚ) ≤ x)
    (h2 : x < (f : ℚ) + 1 / 2) : rne x = f := by
  have hfl : ⌊x⌋ = f := by
    rw [Int.floor_eq_iff]
    refine ⟨h1, by linarith⟩
  rw [rne, hfl, if_pos (by linarith)]

/-- `rne` at a point strictly above the midpoint rounds up. -/
theorem rne_eq_ceil {x : ℚ} {f : ℤ} (h1 : (f : ℚ) + 1 / 2 < x)
    (h2 : x < (f : ℚ) + 1) : rne x = f + 1 := by
  have hfl : ⌊x⌋ = f := by
    rw [Int.floor_eq_iff]
    exact ⟨by linarith, by linarith⟩
  rw [rne, hfl, if_neg (by linarith), if_pos (by linarith)]

/-- Unfold `fl64` once the binade of the argument is known. -/
theorem fl64_eval {q : ℚ} {e : ℤ} (h1 : (2 : ℚ) ^ e ≤ q)
    (h2 : q < (2 : ℚ) ^ (e + 1)) :
    fl64 q = ((rne (q * 2 ^ ((52 : ℤ) - e)) : ℤ) : ℚ) * 2 ^ (e - (52 : ℤ)) := by
  have hq : 0 < q := lt_of_lt_of_le (by positivity) h1
  rw [fl64, if_neg (not_le.mpr hq), int_log2_eq h1 h2]

/-- The double nearest `0.1`. -/
theorem fl64_tenth : fl64 (1 / 10) = 7205759403792794 / 2 ^ 56 := by
  rw [fl64_eval (e := -4) (by norm_num) (by norm_num),
    show (52 : ℤ) - (-4) = (56 : ℕ) by norm_num,
    show (-4 : ℤ) - 52 = -(56 : ℕ) by norm_num,
    show (1 / 10 : ℚ) * 2 ^ ((56 : ℕ) : ℤ) = 72057594037927936 / 10 by
      rw [zpow_natCast]
      norm_num,
    rne_eq_ceil (f := 7205759403792793) (by norm_num) (by norm_num)]
  rw [zpow_neg, zpow_natCast]
  norm_num

/-- The binary64 value of `0.1 ** 2`. -/
theorem e2float_eq : e2float = 5764607523034236 / 2 ^ 59 := by
  rw [e2float, fl64_tenth,
    fl64_eval (e := -7) (by norm_num) (by norm_num),
    show (52 : ℤ) - (-7) = (59 : ℕ) by norm_num,
    show (-7 : ℤ) - 52 = -(59 : ℕ) by norm_num,
    show ((7205759403792794 / 2 ^ 56 : ℚ)) ^ 2 * 2 ^ ((59 : ℕ) : ℤ) =
        51922968585348282049912486326436 / 2 ^ 53 by
      rw [zpow_natCast]
      norm_num,
    rne_eq_ceil (f := 5764607523034235) (by norm_num) (by norm_num)]
  rw [zpow_neg, zpow_natCast]
  norm_num

/-- The program's sample size at `N = 400` is `79`, one below the exact
floor `⌊100·400/500⌋ = 80`: the rounding of `400 * 0.010000000000000002`
lands on `4 + 2⁻⁵⁰`, the sum `5 + 2⁻⁵⁰` is exact, and `400 / (5 + 2⁻⁵⁰)`
rounds to `80 - 2⁻⁴⁶`, whose truncation is `79`. -/
theorem sampleSizeFloat_400 : sampleSizeFloat 400 = 79 := by
  have ha : fl64 ((400 : ℚ) * (5764607523034236 / 2 ^ 59)) =
      4503599627370497 / 2 ^ 50 := by
    rw [fl64_eval (e := 2) (by norm_num) (by norm_num),
      show (52 : ℤ) - 2 = ((50 : ℕ) : ℤ) by norm_num,
      show (2 : ℤ) - 52 = -((50 : ℕ) : ℤ) by norm_num,
      show (400 : ℚ) * (5764607523034236 / 2 ^ 59) * 2 ^ ((50 : ℕ) : ℤ) =
          2305843009213694400 / 512 by
        rw [zpow_natCast]
        norm_num,
      rne_eq_ceil (f := 4503599627370496) (by norm_num) (by norm_num)]
    rw [zpow_neg, zpow_natCast]
    norm_num
  have ht : fl64 (1 + 4503599627370497 / 2 ^ 50 : ℚ) =
      5629499534213121 / 2 ^ 50 := by
    rw [fl64_eval (e := 2) (by norm_num) (by norm_num),
      show (52 : ℤ) - 2 = ((50 : ℕ) : ℤ) by norm_num,
      show (2 : ℤ) - 52 = -((50 : ℕ) : ℤ) by norm_num,
      show (1 + 4503599627370497 / 2 ^ 50 : ℚ) * 2 ^ ((50 : ℕ) : ℤ) =
          5629499534213121 by
        rw [zpow_natCast]
        norm_num,
      rne_eq_floor (f := 5629499534213121) (by norm_num) (by norm_num)]
    rw [zpow_neg, zpow_natCast]
    norm_num
  have hr : fl64 ((400 : ℚ) / (5629499534213121 / 2 ^ 50)) =
      5629499534213119 / 2 ^ 46 := by
    rw [fl64_eval (e := 6) (by norm_num) (by norm_num),
      show (52 : ℤ) - 6 = ((46 : ℕ) : ℤ) by norm_num,
      show (6 : ℤ) - 52 = -((46 : ℕ) : ℤ) by norm_num,
      show (400 : ℚ) / (5629499534213121 / 2 ^ 50) * 2 ^ ((46 : ℕ) : ℤ) =
          31691265005705735037417580134400 / 5629499534213121 by
        rw [zpow_natCast]
        norm_num,
      rne_eq_floor (f := 5629499534213119) (by norm_num) (by norm_num)]
    rw [zpow_neg, zpow_natCast]
    norm_num
  rw [sampleSizeFloat, show ((400 : ℕ) : ℚ) = 400 by norm_num, e2float_eq,
    ha, ht, hr, Int.floor_eq_iff]
  norm_num

/-- The program's sample size at `N = 10` is `9`, agreeing with the exact
floor `⌊1000/110⌋ = 9`. -/
theorem sampleSizeFloat_10 : sampleSizeFloat 10 = 9 := by
  have ha : fl64 ((10 : ℚ) * (5764607523034236 / 2 ^ 59)) =
      7205759403792795 / 2 ^ 56 := by
    rw [fl64_eval (e := -4) (by norm_num) (by norm_num),
      show (52 : ℤ) - (-4) = ((56 : ℕ) : ℤ) by norm_num,
      show (-4 : ℤ) - 52 = -((56 : ℕ) : ℤ) by norm_num,
      show (10 : ℚ) * (5764607523034236 / 2 ^ 59) * 2 ^ ((56 : ℕ) : ℤ) =
          7205759403792795 by
        rw [zpow_natCast]
        norm_num,
      rne_eq_floor (f := 7205759403792795) (by norm_num) (by norm_num)]
    rw [zpow_neg, zpow_natCast]
    norm_num
  have ht : fl64 (1 + 7205759403792795 / 2 ^ 56 : ℚ) =
      4953959590107546 / 2 ^ 52 := by
    rw [fl64_eval (e := 0) (by norm_num) (by norm_num),
      show (52 : ℤ) - 0 = ((52 : ℕ) : ℤ) by norm_num,
      show (0 : ℤ) - 52 = -((52 : ℕ) : ℤ) by norm_num,
      show (1 + 7205759403792795 / 2 ^ 56 : ℚ) * 2 ^ ((52 : ℕ) : ℤ) =
          79263353441720731 / 16 by
        rw [zpow_natCast]
        norm_num,
      rne_eq_ceil (f := 4953959590107545) (by norm_num) (by norm_num)]
    rw [zpow_neg, zpow_natCast]
    norm_num
  have hr : fl64 ((10 : ℚ) / (4953959590107546 / 2 ^ 52)) =
      5117726849284654 / 2 ^ 49 := by
    rw [fl64_eval (e := 3) (by norm_num) (by norm_num),
      show (52 : ℤ) - 3 = ((49 : ℕ) : ℤ) by norm_num,
      show (3 : ℤ) - 52 = -((49 : ℕ) : ℤ) by norm_num,
      show (10 : ℚ) / (4953959590107546 / 2 ^ 52) * 2 ^ ((49 : ℕ) : ℤ) =
          25353012004564588029934064107520 / 4953959590107546 by
        rw [zpow_natCast]
        norm_num,
      rne_eq_floor (f := 5117726849284654) (by norm_num) (by norm_num)]
    rw [zpow_neg, zpow_natCast]
    norm_num
  rw [sampleSizeFloat, show ((10 : ℕ) : ℚ) = 10 by norm_num, e2float_eq,
    ha, ht, hr, Int.floor_eq_iff]
  norm_num

/-- C5 (amended): for an input list of length `N`, the sample size the
program computes is `int(N / (1 + N * 0.1**2))` evaluated in binary64
floating point (`sampleSizeFloat`), not the exact-arithmetic
`⌊N / (1 + N * 0.01)⌋`: the two agree at most sizes (e.g. both give `9` at
`N = 10`) but the float value is one smaller where rounding pushes the
quotient below the integer, first at `N = 400` (see the counterexample).
Given a positive sample size `s`, type matches are counted only at indices
`0, f, 2f, …` below `N` with step `f = ⌊N / s⌋` when `N / s ≥ 2`, and at
every index otherwise. -/
theorem C5_float_sample_size_and_steps :
    sampleSizeFloat 10 = 9 ∧ (yamane 10 : ℤ) = 9 ∧
    (∀ N s : Nat, 0 < s → N < 2 * s → sample_indices N s = List.range N) ∧
    (∀ N s : Nat, 0 < s → 2 * s ≤ N →
      ∀ i : Nat, i ∈ sample_indices N s ↔ i < N ∧ N / s ∣ i) := by
  refine ⟨sampleSizeFloat_10, by decide, ?_, ?_⟩
  · intro N s _ h
    exact sample_indices_all h
  · intro N s hs h i
    exact mem_sample_indices_stepped hs h i

/-- C5 witness: at `N = 10` the program's sample size is `9 = int(10/1.1)`,
and since `10 / 9 < 2` every index is sampled. -/
theorem C5_float_sample_size_and_steps_witness :
    0 < 9 ∧ 10 < 2 * 9 ∧ sample_indices 10 9 = List.range 10 :=
  ⟨by decide, by decide,
   C5_float_sample_size_and_steps.2.2.1 10 9 (by decide) (by decide)⟩

/-- C5 counterexample: the claim's exact formula `⌊N / (1 + N * 0.01)⌋` is
false of the program. At `N = 400` the binary64 evaluation of
`int(N / (1 + N * 0.1**2))` (with `0.1**2 = 0.010000000000000002 > 1/100`)
computes `79`, while the exact formula gives `⌊40000 / 500⌋ = 80` — so the
program does not compute the sample size the claim states (and at
`N = 9900`, if run, the resulting sampling step `⌊9900/98⌋ = 101` even
differs from the exact formula's `⌊9900/99⌋ = 100`). -/
theorem C5_counterexample_float_rounding :
    sampleSizeFloat 400 = 79 ∧ (yamane 400 : ℤ) = 80 :=
  ⟨sampleSizeFloat_400, by decide⟩

/-- A successful gap-date lookup returns one date per gap. -/
theorem gapAfterDates_length (vs : List (Nat × Int)) :
    ∀ (L : List Nat) (ds : List Int), gapAfterDates vs L = some ds →
      ds.length = L.length := by
  intro L
  induction L with
  | nil =>
    intro ds hds
    simp [gapAfterDates] at hds
    simp [← hds]
  | cons i is ih =>
    intro ds hds
    simp only [gapAfterDates] at hds
    cases h1 : lookupLabel vs (i - 1) with
    | none => rw [h1] at hds; exact absurd hds (by simp)
    | some t =>
      rw [h1] at hds
      cases h2 : gapAfterDates vs is with
      | none => rw [h2] at hds; exact absurd hds (by simp)
      | some r =>
        rw [h2] at hds
        have := ih r h2
        simp only [Option.some.injEq] at hds
        rw [← hds]
        simp [this]

/-- C4 (amended): gap detection in `check_temporal_quality` works by
modal-delta thresholding. When all consecutive deltas are pairwise distinct
the result reports pattern `irregular` and gaps `N/A - no regular pattern`
(and `gaps_detected` stays `0`). When at least two deltas are equal,
`gaps_detected` equals the number of deltas strictly greater than 1.5 times
the most common delta and — provided the label immediately below each gap
label is still in the valid series' index, which the extra
`gapAfterDates … = some ds` hypothesis states — `gap_after_dates` lists the
timestamp stored at the label immediately before each gap. (As stated the
claim is false: when the entry immediately before a gap failed to parse, the
lookup raises an uncaught `KeyError`; see the counterexample.) -/
theorem C4_gap_detection (d : List Item) (hvs : validSeries d ≠ []) :
    ((temporalDeltaVals d).Nodup →
      ∃ r, check_temporal_quality d = .ok r ∧
        getK r "pattern" = some (.vStr "irregular") ∧
        getK r "gaps" = some (.vStr "N/A - no regular pattern") ∧
        getK r "gaps_detected" = some (.vNat 0)) ∧
    (¬ (temporalDeltaVals d).Nodup →
      ∀ ds : List Int,
        gapAfterDates (validSeries d)
          ((temporalGaps d).map (fun p => p.1)) = some ds →
        ∃ r, check_temporal_quality d = .ok r ∧
          getK r "gaps_detected" = some (.vNat (temporalGaps d).length) ∧
          getK r "detected frequency" =
            some (.vStr (toString (modeDelta (temporalDeltaVals d)))) ∧
          (temporalGaps d ≠ [] →
            getK r "gap_after_dates" = some (.vTsList ds)) ∧
          ds.length = (temporalGaps d).length) := by
  have he : (validSeries d).isEmpty = false := isEmpty_false_of_ne_nil hvs
  constructor
  · intro hnd
    have heq : check_temporal_quality d =
        .ok (temporalFinish (validSeries d)
          (setK (setK (temporalBase d (validSeries d)) "pattern"
            (.vStr "irregular")) "gaps"
            (.vStr "N/A - no regular pattern"))) := by
      unfold check_temporal_quality
      simp only [he, Bool.false_eq_true, if_false]
      rw [if_pos hnd]
    exact ⟨_, heq, rfl, rfl, rfl⟩
  · intro hnd ds hds
    rcases eq_or_ne (temporalGaps d) [] with hG | hG
    · have hds0 : ds = [] := by
        rw [hG] at hds
        simpa [gapAfterDates] using hds.symm
      have heq : check_temporal_quality d =
          .ok (temporalFinish (validSeries d)
            (setK (setK (temporalBase d (validSeries d))
              "detected frequency"
              (.vStr (toString (modeDelta (temporalDeltaVals d)))))
              "gaps_detected" (.vNat (temporalGaps d).length))) := by
        unfold check_temporal_quality
        simp only [he, Bool.false_eq_true, if_false]
        rw [if_neg hnd, hG]
        rfl
      exact ⟨_, heq, rfl, rfl, fun hne => absurd hG hne,
        by simp [hds0, hG]⟩
    · have hne : ¬ (temporalGaps d).isEmpty = true := by
        rw [isEmpty_false_of_ne_nil hG]
        simp
      have heq : check_temporal_quality d =
          .ok (temporalFinish (validSeries d)
            (setK (setK (setK (temporalBase d (validSeries d))
              "detected frequency"
              (.vStr (toString (modeDelta (temporalDeltaVals d)))))
              "gap_after_dates" (.vTsList ds))
              "gaps_detected" (.vNat (temporalGaps d).length))) := by
        unfold check_temporal_quality
        simp only [he, Bool.false_eq_true, if_false]
        rw [if_neg hnd, if_neg hne, hds]
      refine ⟨_, heq, rfl, rfl, fun _ => rfl, ?_⟩
      have hl := gapAfterDates_length (validSeries d) _ ds hds
      rw [hl, List.length_map]

/-- C4 witness: on the `main()` example the deltas are 1, 1, 0, 2, 1; the
most common delta is 1, the single delta greater than 1.5 is the 2-day jump,
and the date immediately before it (day 3) is reported. -/
theorem C4_gap_detection_witness :
    (validSeries gapWitnessData).length = 6 ∧
    decide (temporalDeltaVals gapWitnessData).Nodup = false ∧
    gapAfterDates (validSeries gapWitnessData)
      ((temporalGaps gapWitnessData).map (fun p => p.1)) = some [3] ∧
    (∃ r, check_temporal_quality gapWitnessData = .ok r ∧
      getK r "gaps_detected" = some (.vNat 1) ∧
      getK r "gap_after_dates" = some (.vTsList [3])) := by
  refine ⟨by decide, by decide, by decide, ?_⟩
  obtain ⟨r, h1, h2, h3, h4, h5⟩ :=
    (C4_gap_detection gapWitnessData (by decide)).2 (by decide) [3] (by decide)
  exact ⟨r, h1, h2.trans (by decide), h4 (by decide)⟩

/-- C4 counterexample: on `gapKeyErrorData` at least two deltas are equal
(they are 1, 8, 1, 1), so the claim as stated promises a `gaps_detected`
count of 1, but `check_temporal_quality` instead raises an uncaught
`KeyError` looking up the dropped label before the gap. -/
theorem C4_counterexample_keyerror :
    decide (temporalDeltaVals gapKeyErrorData).Nodup = false ∧
    (temporalGaps gapKeyErrorData).length = 1 ∧
    check_temporal_quality gapKeyErrorData = .error "KeyError" :=
  ⟨rfl, by decide, rfl⟩

/-- C2 (amended): the outlier detection is standard-deviation-based, not
percentile-based: for every input with nonempty valid numeric values, the
`outliers` entry of `check_data_quality` is exactly the list of valid values
`x` passing `find_outlier`'s test, and that test holds precisely when, over
the reals, `x < mean - 2 * sqrt variance` or `x > mean + 2 * sqrt variance`
(i.e. `x` lies more than two population standard deviations from the mean). -/
theorem C2_outliers_two_std_from_mean (d : List Item) (r : Result)
    (hok : check_data_quality d = .ok r) (h : valid_data d ≠ []) :
    getK r "outliers" =
      some (.vRats ((valid_data d).filter
        (outlierB (npMean (valid_data d)) (npVariance (valid_data d))))) ∧
    ∀ x : ℚ,
      (outlierB (npMean (valid_data d)) (npVariance (valid_data d)) x =
          true ↔
        ((x : ℝ) < (npMean (valid_data d) : ℝ) -
            2 * Real.sqrt (npVariance (valid_data d) : ℝ) ∨
         (npMean (valid_data d) : ℝ) +
            2 * Real.sqrt (npVariance (valid_data d) : ℝ) < (x : ℝ))) := by
  obtain ⟨-, rfl⟩ := check_data_quality_ok_elim hok
  constructor
  · unfold numericAnalysis
    simp only [valid_data_isEmpty_false h, Bool.false_eq_true, if_false]
    rfl
  · intro x
    rw [sqrt_threshold_iff_left (npMean (valid_data d))
        (npVariance (valid_data d)) x (npVariance_nonneg _),
      sqrt_threshold_iff_right (npMean (valid_data d))
        (npVariance (valid_data d)) x (npVariance_nonneg _)]
    simp [outlierB, Bool.or_eq_true, Bool.and_eq_true, decide_eq_true_eq]

/-- C2 witness: instance on `[0, 10]` evaluated at `x = 0`. -/
theorem C2_outliers_two_std_from_mean_witness :
    check_data_quality [Item.vInt 0, Item.vInt 10] =
      .ok (numericAnalysis [Item.vInt 0, Item.vInt 10]) ∧
    (valid_data [Item.vInt 0, Item.vInt 10]).length = 2 ∧
    getK (numericAnalysis [Item.vInt 0, Item.vInt 10]) "outliers" =
      some (.vRats ((valid_data [Item.vInt 0, Item.vInt 10]).filter
        (outlierB (npMean (valid_data [Item.vInt 0, Item.vInt 10]))
          (npVariance (valid_data [Item.vInt 0, Item.vInt 10]))))) ∧
    (outlierB (npMean (valid_data [Item.vInt 0, Item.vInt 10]))
        (npVariance (valid_data [Item.vInt 0, Item.vInt 10])) 0 = true ↔
      ((0 : ℝ) < (npMean (valid_data [Item.vInt 0, Item.vInt 10]) : ℝ) -
          2 * Real.sqrt
            (npVariance (valid_data [Item.vInt 0, Item.vInt 10]) : ℝ) ∨
       (npMean (valid_data [Item.vInt 0, Item.vInt 10]) : ℝ) +
          2 * Real.sqrt
            (npVariance (valid_data [Item.vInt 0, Item.vInt 10]) : ℝ) <
          (0 : ℝ))) := by
  have h := C2_outliers_two_std_from_mean [Item.vInt 0, Item.vInt 10]
    (numericAnalysis [Item.vInt 0, Item.vInt 10]) rfl (by decide)
  refine ⟨rfl, by decide, h.1, ?_⟩
  have h2 := h.2 0
  simpa using h2

/-- Every percentile of the two-element data list `[0, 10]` is nonnegative
(it is `10 * p / 100` for `p < 100` and `10` at `p = 100`). -/
theorem percentileValue_nonneg_two {p : ℚ} (hp0 : 0 ≤ p) (hp1 : p ≤ 100) :
    0 ≤ percentileValue p [0, 10] := by
  have hs : List.insertionSort (fun a b => a ≤ b) [(0 : ℚ), 10] = [0, 10] := by
    norm_num [List.insertionSort, List.orderedInsert]
  have h0 : (0 : ℚ) ≤ p / 100 := by positivity
  have h1 : p / 100 ≤ 1 := by linarith
  rcases lt_or_eq_of_le h1 with hlt | heq
  · have hfl : ⌊p / 100⌋ = 0 := by
      rw [Int.floor_eq_zero_iff]
      exact ⟨h0, hlt⟩
    simp only [percentileValue, hs, List.length_cons, List.length_nil]
    norm_num
    rw [hfl]
    norm_num
    have hmul : 0 ≤ p / 100 * 10 := mul_nonneg h0 (by norm_num)
    nlinarith [hmul]
  · have hfl : ⌊p / 100⌋ = 1 := by
      rw [heq]
      norm_num
    simp only [percentileValue, hs, List.length_cons, List.length_nil]
    norm_num
    rw [hfl]
    norm_num

/-- C2 counterexample: on the data `[0, 10]` the cutoff actually used by
`find_outlier` on the lower side, `mean - 2 * std = 5 - 2 * sqrt 25 = -5`,
is not a percentile of the data (every percentile of `[0, 10]` lies in
`[0, 10]`), so the thresholds are not "percentile-based cutoff thresholds
computed from the data"; the detection flags nothing here while any
percentile pair strictly inside the data range would. -/
theorem C2_counterexample_not_percentile_based :
    find_outlier [(0 : ℚ), 10] = [] ∧
    npMean [(0 : ℚ), 10] = 5 ∧ npVariance [(0 : ℚ), 10] = 25 ∧
    (npMean [(0 : ℚ), 10] : ℝ) -
      2 * Real.sqrt (npVariance [(0 : ℚ), 10] : ℝ) = -5 ∧
    percentileSet [(0 : ℚ), 10] ∩ {(-5 : ℚ)} = ∅ := by
  have hm : npMean [(0 : ℚ), 10] = 5 := by
    norm_num [npMean, List.sum_cons, List.sum_nil]
  have hv : npVariance [(0 : ℚ), 10] = 25 := by
    norm_num [npVariance, npMean, List.sum_cons, List.sum_nil,
      List.map_cons, List.map_nil]
  have hsqrt : Real.sqrt (((25 : ℚ)) : ℝ) = 5 := by
    rw [show (((25 : ℚ)) : ℝ) = (5 : ℝ) ^ 2 by norm_num,
      Real.sqrt_sq (by norm_num)]
  refine ⟨?_, hm, hv, ?_, ?_⟩
  · unfold find_outlier
    rw [hm, hv]
    norm_num [List.filter, outlierB]
  · rw [hm, hv, hsqrt]
    norm_num
  · rw [Set.eq_empty_iff_forall_not_mem]
    intro q hq
    rw [Set.mem_inter_iff, Set.mem_singleton_iff] at hq
    obtain ⟨hqP, rfl⟩ := hq
    simp only [percentileSet, Set.mem_setOf_eq] at hqP
    obtain ⟨p, hp0, hp1, hpv⟩ := hqP
    have hnn := percentileValue_nonneg_two hp0 hp1
    rw [← hpv] at hnn
    linarith

end DataChecker
